import Mathlib

/-!
Verification development for the AI Fai Chun photobooth backend
(`src/server/main.py`).  The Python module is shallowly embedded: JSON
values become an inductive type, the pure helpers (`find_first_http_url`,
`extract_task_id`, the template table) become Lean functions translated
line by line, and the stateful finalize routine (`finalize_job`) becomes a
pure function from an environment (oracles for the upstream poll endpoint,
the artifact download, and the best-effort cloud-mirror uploads) and an
archive entry (output artifact plus the `meta.json` record) to a result
recording the post state, the number of poll attempts, the number of
sleeps, the number of download calls, and whether an exception escaped.
-/

set_option maxRecDepth 8000

namespace FaiChun

/-- JSON values as produced by `json.loads` / `response.json()` in the
Python source.  `null` doubles as the Python `None`. -/
inductive Json where
  | null
  | bool (b : Bool)
  | num (n : Int)
  | str (s : String)
  | arr (elems : List Json)
  | obj (pairs : List (String × Json))

/-- Association lookup on the pairs of a JSON object, first match wins;
Python dicts have unique keys, so this matches `x[k]` presence testing. -/
def jlookup : List (String × Json) → String → Option Json
  | [], _ => none
  | (k', v) :: rest, k => if k' = k then some v else jlookup rest k

/-- Python `d.get(k)`: the stored value when the key is present, `None`
(modelled as `Json.null`) when absent. -/
def dget (kvs : List (String × Json)) (k : String) : Json :=
  (jlookup kvs k).getD Json.null

/-- Python truthiness of a JSON-decoded value. -/
def truthy : Json → Bool
  | .null => false
  | .bool b => b
  | .num n => decide (n ≠ 0)
  | .str s => decide (s ≠ "")
  | .arr xs => !xs.isEmpty
  | .obj kvs => !kvs.isEmpty

/-- Python `a or b`: `a` when truthy, otherwise `b`. -/
def pyOr (a b : Json) : Json := if truthy a then a else b

/-- The candidate field names of `find_first_http_url`, in the priority
order of the source (`["fileUrl", "url", "file", "path"]`). -/
def CANDIDATE_KEYS : List String := ["fileUrl", "url", "file", "path"]

/-- One character list is an initial segment of another. -/
def charsStart : List Char → List Char → Bool
  | [], _ => true
  | _ :: _, [] => false
  | p :: ps, c :: cs => p == c && charsStart ps cs

/-- Python `s.startswith("http")`, modelled over the character list of
the string. -/
def startsHttp (s : String) : Bool := charsStart "http".data s.data

/-- The body of the per-key check in `find_first_http_url`: the value
stored under a key qualifies when it is a string starting with "http"
(`isinstance(v, str) and v.startswith("http")`). -/
def isHttpStr : Option Json → Option String
  | some (.str s) => if startsHttp s then some s else none
  | _ => none

/-- The candidate strings contributed by one dict node, in key-priority
order: the first inner loop of `walk` in `find_first_http_url`. -/
def dictCandidates (kvs : List (String × Json)) : List String :=
  CANDIDATE_KEYS.filterMap (fun k => isHttpStr (jlookup kvs k))

mutual

/-- The `walk` helper of `find_first_http_url`: the full list `found` of
candidate strings appended during the traversal, in append order
(per-node candidates in key-priority order, then the values of the node
in insertion order, depth first). -/
def walkFound : Json → List String
  | .arr xs => walkList xs
  | .obj kvs => dictCandidates kvs ++ walkVals kvs
  | _ => []

/-- Traversal of the elements of a JSON list (`for i in x: walk(i)`). -/
def walkList : List Json → List String
  | [] => []
  | x :: xs => walkFound x ++ walkList xs

/-- Traversal of the values of a JSON object (`for v in x.values(): walk(v)`). -/
def walkVals : List (String × Json) → List String
  | [] => []
  | (_, v) :: rest => walkFound v ++ walkVals rest

end

/-- `find_first_http_url` from the source: collect every candidate during
the traversal, then return `found[0] if found else None`. -/
def find_first_http_url (j : Json) : Option String :=
  (walkFound j).head?

/-- First-some choice on options; used by the specification-side
extraction function. -/
def optOr : Option String → Option String → Option String
  | some s, _ => some s
  | none, o => o

mutual

/-- Modelled from the specification wording for URL extraction (not from
the source): return the first string value resembling an HTTP URL under a
candidate field name, the fields checked in priority order at each node
during a depth-first traversal, and null when none exists. -/
def specFirstUrl : Json → Option String
  | .arr xs => specFirstList xs
  | .obj kvs => optOr (dictCandidates kvs).head? (specFirstVals kvs)
  | _ => none

/-- Specification-side first match over the elements of a JSON list. -/
def specFirstList : List Json → Option String
  | [] => none
  | x :: xs => optOr (specFirstUrl x) (specFirstList xs)

/-- Specification-side first match over the values of a JSON object. -/
def specFirstVals : List (String × Json) → Option String
  | [] => none
  | (_, v) :: rest => optOr (specFirstUrl v) (specFirstVals rest)

end

/-- The string `s` occurs somewhere in `j` as the value of one of the four
candidate keys of some dict node and starts with "http". -/
inductive HttpCandidate : String → Json → Prop where
  | here (kvs : List (String × Json)) (k : String) (s : String)
      (hk : k ∈ CANDIDATE_KEYS) (hv : jlookup kvs k = some (.str s))
      (hs : startsHttp s = true) : HttpCandidate s (.obj kvs)
  | inVal (kvs : List (String × Json)) (k : String) (v : Json) (s : String)
      (hmem : (k, v) ∈ kvs) (hc : HttpCandidate s v) : HttpCandidate s (.obj kvs)
  | inArr (xs : List Json) (x : Json) (s : String)
      (hmem : x ∈ xs) (hc : HttpCandidate s x) : HttpCandidate s (.arr xs)

/-- Body of `extract_task_id` on a dict response: check `data.taskId`,
`data.task_id`, `data.id` when `data` is a dict; return `data` itself
when it is a string; otherwise fall back to top-level `taskId` /
`task_id`.  Python `or` chains are modelled by `pyOr`, Python `None` by
`Json.null`. -/
def extract_task_id_kvs (kvs : List (String × Json)) : Json :=
  match dget kvs "data" with
  | .obj dk => pyOr (pyOr (dget dk "taskId") (dget dk "task_id")) (dget dk "id")
  | .str s => .str s
  | _ => pyOr (dget kvs "taskId") (dget kvs "task_id")

/-- Function `extract_task_id` from the source.  A non-dict response
raises an `AttributeError` in the source (and thus also fails job
creation); it is modelled as `null`, which is equally falsy. -/
def extract_task_id : Json → Json
  | .obj kvs => extract_task_id_kvs kvs
  | _ => .null

/-- The `TEMPLATE_TO_INT` table of `api_run`. -/
def TEMPLATE_TO_INT : List (String × Nat) :=
  [("fai_chun_01", 1), ("fai_chun_02", 2), ("fai_chun_03", 3), ("fai_chun_04", 4)]

/-- Python `TEMPLATE_TO_INT.get(templateId, 1)` from `api_run`: the switch value
submitted upstream for a template id; a total function with default 1. -/
def switchValue (templateId : String) : Nat :=
  (List.lookup templateId TEMPLATE_TO_INT).getD 1

/-- Bytes of an artifact file. -/
abbrev Bytes := List Nat

/-- One archive entry: the optional `output.png` artifact and the content
of `meta.json` (the Job Record; `[]` when the file is absent, matching the
`meta = {}` default in `finalize_job`). -/
structure Entry where
  output : Option Bytes
  meta : List (String × Json)

/-- Environment of one `finalize_job` run: oracles for the upstream poll
endpoint (`rh_post_json` on RH_OUTPUTS for attempt `i`; `Except.error`
models a raised exception), the HTTP download of the discovered URL, the
two best-effort Drive uploads (each covering `get_drive` plus the upload
call), the `GDRIVE_ENABLED` flag, and the timestamp string returned by
`datetime.now().isoformat()`. -/
structure Env where
  poll : Nat → Except Unit Json
  download : String → Except Unit Bytes
  uploadOutput : Except Unit Unit
  uploadMeta : Except Unit Unit
  gdriveEnabled : Bool
  now : String

/-- Python `meta[k] = v` on a dict: replace the value in place when the
key exists, append the pair otherwise. -/
def setKey : List (String × Json) → String → Json → List (String × Json)
  | [], k, v => [(k, v)]
  | (k', v') :: rest, k, v =>
      if k' = k then (k, v) :: rest else (k', v') :: setKey rest k v

/-- Body of one successful poll response inside the loop of
`finalize_job`: `data = out.get("data", out)` (the default applies only
when the key is absent) followed by `find_first_http_url(data)`.  A
non-dict response makes `out.get` raise an `AttributeError`, which the
enclosing `except` swallows, so it yields no URL. -/
def pollStep : Json → Option String
  | .obj kvs =>
      match jlookup kvs "data" with
      | some d => find_first_http_url d
      | none => find_first_http_url (.obj kvs)
  | _ => none

/-- URL observed by poll attempt `i` (0-indexed): `none` when the request
raised or the response held no candidate URL. -/
def attemptUrl (env : Env) (i : Nat) : Option String :=
  match env.poll i with
  | .error _ => none
  | .ok out => pollStep out

/-- The `for _ in range(300)` loop of `finalize_job`, starting at attempt
index `i` with `r` iterations left: returns the discovered URL together
with the total number of attempts performed, or `none` when the budget is
exhausted. -/
def pollFrom (env : Env) (i : Nat) : Nat → Option (String × Nat)
  | 0 => none
  | r + 1 =>
      match attemptUrl env i with
      | some url => some (url, i + 1)
      | none => pollFrom env (i + 1) r

/-- Result of one `finalize_job` run: the post-state of the archive entry,
the number of poll attempts, the number of 2-second sleeps executed (one
after every non-breaking loop iteration), the number of download calls,
and whether an exception escaped the routine. -/
structure FinalizeResult where
  entry : Entry
  polls : Nat
  sleeps : Nat
  downloads : Nat
  raised : Bool

/-- The Job Record after the success path of `finalize_job`: the
best-effort Drive output upload runs first (guarded by `GDRIVE_ENABLED`
and a truthy `driveFolderId`; success adds `driveOutputUploadedAt`, any
exception is swallowed), then `outputUrl` and `finalizedAt` are set. -/
def successMeta (env : Env) (m : List (String × Json)) (url : String) :
    List (String × Json) :=
  let meta1 :=
    if env.gdriveEnabled && truthy (dget m "driveFolderId") then
      match env.uploadOutput with
      | .ok _ => setKey m "driveOutputUploadedAt" (.str env.now)
      | .error _ => m
    else m
  setKey (setKey meta1 "outputUrl" (.str url)) "finalizedAt" (.str env.now)

/-- Tail of `finalize_job` after the download attempt of the discovered
URL: an exception escapes the routine (`raised`), leaving the entry
untouched; a success writes the bytes as the output artifact and updates
the Job Record per `successMeta`. -/
def afterDownload (env : Env) (m : List (String × Json)) (url : String) (n : Nat) :
    Except Unit Bytes → FinalizeResult
  | .error _ => ⟨⟨none, m⟩, n, n - 1, 1, true⟩
  | .ok bytes => ⟨⟨some bytes, successMeta env m url⟩, n, n - 1, 1, false⟩

/-- Tail of `finalize_job` after the poll loop: on timeout record
`finalizeError` in the Job Record (300 attempts, 300 sleeps, nothing
raised, no artifact); on a discovered URL proceed to the download. -/
def afterPoll (env : Env) (m : List (String × Json)) :
    Option (String × Nat) → FinalizeResult
  | none =>
      ⟨⟨none, setKey m "finalizeError"
          (.str "Timeout waiting for RunningHub output")⟩, 300, 300, 0, false⟩
  | some (url, n) => afterDownload env m url n (env.download url)

/-- Function `finalize_job` from the source.  Entry guard: return
unchanged when the output artifact exists.  Otherwise run the bounded
poll loop and continue per `afterPoll` / `afterDownload`; the final
best-effort Drive upload of the record has no effect on local state
whether it succeeds or fails. -/
def finalize_job (env : Env) : Entry → FinalizeResult
  | ⟨some b, m⟩ => ⟨⟨some b, m⟩, 0, 0, 0, false⟩
  | ⟨none, m⟩ => afterPoll env m (pollFrom env 0 300)

/-- The Job Record written by `api_run` for a concrete submission, used by
concrete witness runs (mirroring disabled, so `driveFolderId` is null). -/
def metaBase : List (String × Json) :=
  [("archiveId", .str "2026-01-01_ab12cd34"), ("taskId", .str "task-1"),
   ("templateId", .str "fai_chun_01"), ("seed", .num 123456789),
   ("createdAt", .str "2026-01-01T00:00:00"), ("driveFolderId", .null)]

/-- A fresh archive entry: no output artifact, Job Record from `api_run`. -/
def entryFresh : Entry := ⟨none, metaBase⟩

/-- An already-finalized archive entry (output artifact present). -/
def entryDone : Entry := ⟨some [9, 9], metaBase⟩

/-- A poll response carrying an output URL under `data.fileUrl`. -/
def respWithUrl : Json := .obj [("data", .obj [("fileUrl", .str "http://x/out.png")])]

/-- A poll response carrying no candidate URL. -/
def respEmpty : Json := .obj [("code", .num 0)]

/-- Environment where every upstream poll raises, so the loop exhausts
its budget. -/
def envIdle : Env :=
  ⟨fun _ => .error (), fun _ => .error (), .error (), .error (), false,
   "2026-01-01T00:10:00"⟩

/-- Environment where the first poll already returns an output URL and
the download succeeds; both mirror uploads fail. -/
def envOk : Env :=
  ⟨fun _ => .ok respWithUrl, fun _ => .ok [137, 80, 78, 71], .error (), .error (),
   false, "2026-01-02T00:00:00"⟩

/-- Environment where polls 0 and 1 return a response without a URL and
poll 2 returns one; the download succeeds. -/
def envThree : Env :=
  ⟨fun i => .ok (if i < 2 then respEmpty else respWithUrl), fun _ => .ok [1, 2, 3],
   .ok (), .ok (), false, "2026-01-03T00:00:00"⟩

/-- Environment where the first poll returns an output URL but the
download of that URL raises. -/
def envDlFail : Env :=
  ⟨fun _ => .ok respWithUrl, fun _ => .error (), .ok (), .ok (), false,
   "2026-01-04T00:00:00"⟩

/-! Helper lemmas about the embedded operations. -/

theorem jlookup_setKey (m : List (String × Json)) (k : String) (v : Json)
    (k' : String) :
    jlookup (setKey m k v) k' = if k = k' then some v else jlookup m k' := by
  induction m with
  | nil => by_cases h : k = k' <;> simp [setKey, jlookup, h]
  | cons p rest ih =>
      obtain ⟨k₀, v₀⟩ := p
      by_cases h1 : k₀ = k <;> by_cases h2 : k = k' <;> by_cases h3 : k₀ = k' <;>
        simp_all [setKey, jlookup]

theorem pollFrom_succ (env : Env) (i r : Nat) :
    pollFrom env i (r + 1) =
      match attemptUrl env i with
      | some url => some (url, i + 1)
      | none => pollFrom env (i + 1) r := rfl

theorem pollFrom_le (env : Env) :
    ∀ r i url n, pollFrom env i r = some (url, n) → n ≤ i + r := by
  intro r
  induction r with
  | zero => intro i url n h; exact absurd h (by simp [pollFrom])
  | succ r ih =>
      intro i url n h
      rw [pollFrom_succ] at h
      cases hA : attemptUrl env i with
      | some u =>
          rw [hA] at h
          simp only [Option.some.injEq, Prod.mk.injEq] at h
          omega
      | none =>
          rw [hA] at h
          have := ih (i + 1) url n h
          omega

theorem pollFrom_none (env : Env) (h : ∀ i, attemptUrl env i = none) :
    ∀ r i, pollFrom env i r = none := by
  intro r
  induction r with
  | zero => intro i; rfl
  | succ r ih =>
      intro i
      rw [pollFrom_succ, h i]
      exact ih (i + 1)

theorem finalize_job_out (env : Env) (b : Bytes) (m : List (String × Json)) :
    finalize_job env ⟨some b, m⟩ = ⟨⟨some b, m⟩, 0, 0, 0, false⟩ := rfl

theorem finalize_job_none (env : Env) (m : List (String × Json)) :
    finalize_job env ⟨none, m⟩ = afterPoll env m (pollFrom env 0 300) := rfl

theorem afterPoll_none (env : Env) (m : List (String × Json)) :
    afterPoll env m none =
      ⟨⟨none, setKey m "finalizeError"
          (.str "Timeout waiting for RunningHub output")⟩, 300, 300, 0, false⟩ := rfl

theorem afterPoll_some (env : Env) (m : List (String × Json)) (url : String)
    (n : Nat) :
    afterPoll env m (some (url, n)) = afterDownload env m url n (env.download url) :=
  rfl

theorem afterDownload_error (env : Env) (m : List (String × Json)) (url : String)
    (n : Nat) (u : Unit) :
    afterDownload env m url n (.error u) = ⟨⟨none, m⟩, n, n - 1, 1, true⟩ := rfl

theorem afterDownload_ok (env : Env) (m : List (String × Json)) (url : String)
    (n : Nat) (bytes : Bytes) :
    afterDownload env m url n (.ok bytes) =
      ⟨⟨some bytes, successMeta env m url⟩, n, n - 1, 1, false⟩ := rfl

theorem afterDownload_polls (env : Env) (m : List (String × Json)) (url : String)
    (n : Nat) (d : Except Unit Bytes) : (afterDownload env m url n d).polls = n := by
  cases d <;> rfl

theorem successMeta_outputUrl (env : Env) (m : List (String × Json)) (url : String) :
    jlookup (successMeta env m url) "outputUrl" = some (.str url) := by
  simp only [successMeta]
  rw [jlookup_setKey, if_neg (by decide), jlookup_setKey, if_pos rfl]

theorem successMeta_finalizedAt (env : Env) (m : List (String × Json)) (url : String) :
    jlookup (successMeta env m url) "finalizedAt" = some (.str env.now) := by
  simp only [successMeta]
  rw [jlookup_setKey, if_pos rfl]

theorem successMeta_other (env : Env) (m : List (String × Json)) (url : String)
    (k : String) (h1 : k ≠ "outputUrl") (h2 : k ≠ "finalizedAt")
    (h3 : k ≠ "driveOutputUploadedAt") :
    jlookup (successMeta env m url) k = jlookup m k := by
  simp only [successMeta]
  rw [jlookup_setKey, if_neg (fun h => h2 h.symm),
    jlookup_setKey, if_neg (fun h => h1 h.symm)]
  split
  · split
    · rw [jlookup_setKey, if_neg (fun h => h3 h.symm)]
    · rfl
  · rfl

/-! Claim theorems. -/

/-- C1: for every archive entry, invoking finalize when the output
artifact already exists is a no-op: the routine returns immediately with
zero upstream poll calls, zero downloads, no escaping exception, and the
archive entry (Job Record and artifacts) unchanged. -/
theorem c1_finalize_guard_noop (env : Env) (e : Entry) (b : Bytes)
    (h : e.output = some b) :
    finalize_job env e = ⟨e, 0, 0, 0, false⟩ := by
  obtain ⟨o, m⟩ := e
  cases o with
  | none => exact Option.noConfusion h
  | some b' => rfl

/-- C1 witness: the guard fires on a concrete already-finalized entry. -/
theorem c1_finalize_guard_noop_witness :
    finalize_job envIdle entryDone = ⟨entryDone, 0, 0, 0, false⟩ :=
  c1_finalize_guard_noop envIdle entryDone [9, 9] rfl

/-- C2 counterexample: starting from a fresh Job Record, a finalize run
that times out records `finalizeError`; a second run that then succeeds
sets `outputUrl` and `finalizedAt` without clearing the stale
`finalizeError`, so the persisted record carries both outcomes at once,
refuting mutual exclusivity for a success after an earlier timeout. -/
theorem c2_counterexample :
    (jlookup (finalize_job envOk (finalize_job envIdle entryFresh).entry).entry.meta
        "outputUrl").isSome = true ∧
    (jlookup (finalize_job envOk (finalize_job envIdle entryFresh).entry).entry.meta
        "finalizedAt").isSome = true ∧
    (jlookup (finalize_job envOk (finalize_job envIdle entryFresh).entry).entry.meta
        "finalizeError").isSome = true :=
  ⟨rfl, rfl, rfl⟩

/-- C2 amended: mutual exclusivity holds for a single finalize run from a
record carrying neither outcome (as written by `api_run`): such a run
never produces a record holding a success field (`outputUrl` or
`finalizedAt`) together with `finalizeError`.  A success run does not
clear a pre-existing `finalizeError`, so the invariant does not extend to
a success after an earlier timed-out run. -/
theorem c2_outcomes_exclusive (env : Env) (e : Entry)
    (h1 : jlookup e.meta "outputUrl" = none)
    (h2 : jlookup e.meta "finalizedAt" = none)
    (h3 : jlookup e.meta "finalizeError" = none) :
    ¬(((jlookup (finalize_job env e).entry.meta "outputUrl").isSome = true ∨
        (jlookup (finalize_job env e).entry.meta "finalizedAt").isSome = true) ∧
      (jlookup (finalize_job env e).entry.meta "finalizeError").isSome = true) := by
  obtain ⟨o, m⟩ := e
  have h1' : jlookup m "outputUrl" = none := h1
  have h2' : jlookup m "finalizedAt" = none := h2
  have h3' : jlookup m "finalizeError" = none := h3
  cases o with
  | some b =>
      rw [finalize_job_out]
      simp [h1', h2']
  | none =>
      cases hp : pollFrom env 0 300 with
      | none =>
          rw [finalize_job_none, hp, afterPoll_none]
          simp only []
          rw [jlookup_setKey, if_neg (by decide), jlookup_setKey, if_neg (by decide)]
          simp [h1', h2']
      | some p =>
          obtain ⟨url, n⟩ := p
          cases hdl : env.download url with
          | error u =>
              rw [finalize_job_none, hp, afterPoll_some, hdl, afterDownload_error]
              simp [h3']
          | ok bytes =>
              rw [finalize_job_none, hp, afterPoll_some, hdl, afterDownload_ok]
              simp only []
              rw [successMeta_other env m url "finalizeError" (by decide) (by decide)
                (by decide)]
              simp [h3']

/-- C2 witness: the amended exclusivity applied to a concrete timed-out
run from a fresh record. -/
theorem c2_outcomes_exclusive_witness :
    ¬(((jlookup (finalize_job envIdle entryFresh).entry.meta "outputUrl").isSome =
          true ∨
        (jlookup (finalize_job envIdle entryFresh).entry.meta "finalizedAt").isSome =
          true) ∧
      (jlookup (finalize_job envIdle entryFresh).entry.meta "finalizeError").isSome =
        true) :=
  c2_outcomes_exclusive envIdle entryFresh rfl rfl rfl

/-- C3 counterexample: with the first poll returning an output URL and the
download of that URL raising, `finalize_job` lets the exception escape
(`raised = true`) and records nothing in the Job Record (`finalizeError`
absent) and writes no artifact — refuting that a download error is
recorded and never raised to the caller. -/
theorem c3_counterexample :
    (finalize_job envDlFail entryFresh).raised = true ∧
    jlookup (finalize_job envDlFail entryFresh).entry.meta "finalizeError" = none ∧
    (finalize_job envDlFail entryFresh).entry.output = none :=
  ⟨rfl, rfl, rfl⟩

/-- C3 amended: of the two fatal conditions only the poll-budget
exhaustion is recorded in the Job Record and not raised; a failure of the
final download is not recorded — it escapes the finalize routine as an
exception, leaving the archive entry unchanged. -/
theorem c3_fatal_handling (env : Env) (m : List (String × Json)) :
    ((∀ i, attemptUrl env i = none) →
        (finalize_job env ⟨none, m⟩).raised = false ∧
        jlookup (finalize_job env ⟨none, m⟩).entry.meta "finalizeError" =
          some (.str "Timeout waiting for RunningHub output")) ∧
    (∀ url n, pollFrom env 0 300 = some (url, n) → env.download url = .error () →
        (finalize_job env ⟨none, m⟩).raised = true ∧
        (finalize_job env ⟨none, m⟩).entry = ⟨none, m⟩) := by
  constructor
  · intro hall
    have hp : pollFrom env 0 300 = none := pollFrom_none env hall 300 0
    rw [finalize_job_none, hp, afterPoll_none]
    refine ⟨rfl, ?_⟩
    rw [jlookup_setKey, if_pos rfl]
  · intro url n hp hd
    rw [finalize_job_none, hp, afterPoll_some, hd, afterDownload_error]
    exact ⟨rfl, rfl⟩

/-- C3 witness: the amended behavior on concrete runs — a full timeout
records the error without raising, and a failing download raises while
leaving the entry unchanged. -/
theorem c3_fatal_handling_witness :
    ((finalize_job envIdle entryFresh).raised = false ∧
      jlookup (finalize_job envIdle entryFresh).entry.meta "finalizeError" =
        some (.str "Timeout waiting for RunningHub output")) ∧
    ((finalize_job envDlFail entryFresh).raised = true ∧
      (finalize_job envDlFail entryFresh).entry = ⟨none, metaBase⟩) :=
  ⟨(c3_fatal_handling envIdle metaBase).1 (fun _ => rfl),
   (c3_fatal_handling envDlFail metaBase).2 "http://x/out.png" 1 rfl rfl⟩

/-- C4: the poll loop performs at most 300 attempts, each followed by one
2-second sleep unless it breaks, so finalize terminates regardless of the
upstream; when the upstream never yields an output URL the run uses the
full budget of 300 attempts and 300 sleeps, raises nothing, writes no
output artifact, and records `finalizeError` in the Job Record. -/
theorem c4_poll_bounded (env : Env) (e : Entry) :
    (finalize_job env e).polls ≤ 300 ∧
    (e.output = none → (∀ i, attemptUrl env i = none) →
      (finalize_job env e).polls = 300 ∧ (finalize_job env e).sleeps = 300 ∧
      (finalize_job env e).raised = false ∧
      (finalize_job env e).entry.output = none ∧
      jlookup (finalize_job env e).entry.meta "finalizeError" =
        some (.str "Timeout waiting for RunningHub output")) := by
  obtain ⟨o, m⟩ := e
  cases o with
  | some b =>
      refine ⟨by rw [finalize_job_out]; exact Nat.zero_le 300,
        fun h => absurd h (by simp)⟩
  | none =>
      cases hp : pollFrom env 0 300 with
      | none =>
          rw [finalize_job_none, hp, afterPoll_none]
          refine ⟨Nat.le_refl 300, fun _ _ => ⟨rfl, rfl, rfl, rfl, ?_⟩⟩
          rw [jlookup_setKey, if_pos rfl]
      | some p =>
          obtain ⟨url, n⟩ := p
          constructor
          · rw [finalize_job_none, hp, afterPoll_some, afterDownload_polls]
            have := pollFrom_le env 300 0 url n hp
            omega
          · intro _ hall
            have := pollFrom_none env hall 300 0
            rw [hp] at this
            exact Option.noConfusion this

/-- C4 witness: a concrete run whose polls all raise exhausts the budget
and records the timeout. -/
theorem c4_poll_bounded_witness :
    (finalize_job envIdle entryFresh).polls ≤ 300 ∧
    (finalize_job envIdle entryFresh).polls = 300 ∧
    (finalize_job envIdle entryFresh).sleeps = 300 ∧
    (finalize_job envIdle entryFresh).raised = false ∧
    (finalize_job envIdle entryFresh).entry.output = none ∧
    jlookup (finalize_job envIdle entryFresh).entry.meta "finalizeError" =
      some (.str "Timeout waiting for RunningHub output") :=
  ⟨(c4_poll_bounded envIdle entryFresh).1,
   (c4_poll_bounded envIdle entryFresh).2 rfl (fun _ => rfl)⟩

/-- C6 counterexample: the response holding a task identifier under the
recognized top-level key `taskId` next to a dict-valued `data` field is
not extracted — `extract_task_id` returns `None`, so job creation fails
even though a recognized key holds an identifier. -/
theorem c6_counterexample :
    jlookup [("data", Json.obj []), ("taskId", Json.str "t-1")] "taskId" =
      some (.str "t-1") ∧
    extract_task_id (.obj [("data", .obj []), ("taskId", .str "t-1")]) = .null ∧
    truthy (extract_task_id (.obj [("data", .obj []), ("taskId", .str "t-1")])) =
      false :=
  ⟨rfl, rfl, rfl⟩

/-- C6 amended: when the `data` field of the response is a dict, only the
keys `taskId`, `task_id`, `id` inside it are consulted, in that priority
order (the first truthy value wins); top-level keys are ignored in this
case, and when all three are missing or falsy the extraction yields a
falsy value, making job creation fail with an upstream error. -/
theorem c6_extract_task_id_priority (kvs dk : List (String × Json))
    (hd : dget kvs "data" = .obj dk) :
    (truthy (dget dk "taskId") = true →
        extract_task_id (.obj kvs) = dget dk "taskId") ∧
    (truthy (dget dk "taskId") = false → truthy (dget dk "task_id") = true →
        extract_task_id (.obj kvs) = dget dk "task_id") ∧
    (truthy (dget dk "taskId") = false → truthy (dget dk "task_id") = false →
        extract_task_id (.obj kvs) = dget dk "id") ∧
    (truthy (dget dk "taskId") = false → truthy (dget dk "task_id") = false →
        truthy (dget dk "id") = false →
        truthy (extract_task_id (.obj kvs)) = false) := by
  have he : extract_task_id (.obj kvs) =
      pyOr (pyOr (dget dk "taskId") (dget dk "task_id")) (dget dk "id") := by
    show extract_task_id_kvs kvs = _
    unfold extract_task_id_kvs
    rw [hd]
  refine ⟨?_, ?_, ?_, ?_⟩
  · intro h1; rw [he]; simp [pyOr, h1]
  · intro h1 h2; rw [he]; simp [pyOr, h1, h2]
  · intro h1 h2; rw [he]; simp [pyOr, h1, h2]
  · intro h1 h2 h3; rw [he]; simp [pyOr, h1, h2, h3]

/-- C6 witness: extraction picks `data.taskId` on a concrete response. -/
theorem c6_extract_task_id_priority_witness :
    extract_task_id (.obj [("data", .obj [("taskId", .str "abc")])]) =
      dget [("taskId", Json.str "abc")] "taskId" :=
  (c6_extract_task_id_priority [("data", .obj [("taskId", .str "abc")])]
    [("taskId", .str "abc")] rfl).1 rfl

/-- C7: when every Cloud Mirror upload fails, a finalize run that reaches
the success path still completes the local archive: the downloaded bytes
are written as the output artifact, the Job Record gains `outputUrl` and
`finalizedAt` and is persisted, and no mirror failure escapes the
routine (a failed folder creation at submission time is covered as well,
since it leaves `driveFolderId` null in the record, which any `m` here
may contain). -/
theorem c7_mirror_failure_harmless (env : Env) (m : List (String × Json))
    (url : String) (n : Nat) (bytes : Bytes)
    (_hup : env.uploadOutput = .error ()) (_hum : env.uploadMeta = .error ())
    (hp : pollFrom env 0 300 = some (url, n)) (hd : env.download url = .ok bytes) :
    (finalize_job env ⟨none, m⟩).raised = false ∧
    (finalize_job env ⟨none, m⟩).entry.output = some bytes ∧
    jlookup (finalize_job env ⟨none, m⟩).entry.meta "outputUrl" =
      some (.str url) ∧
    jlookup (finalize_job env ⟨none, m⟩).entry.meta "finalizedAt" =
      some (.str env.now) := by
  rw [finalize_job_none, hp, afterPoll_some, hd, afterDownload_ok]
  exact ⟨rfl, rfl, successMeta_outputUrl env m url, successMeta_finalizedAt env m url⟩

/-- C7 witness: a concrete success run with both mirror uploads failing
still writes the artifact and the success fields. -/
theorem c7_mirror_failure_harmless_witness :
    (finalize_job envOk entryFresh).raised = false ∧
    (finalize_job envOk entryFresh).entry.output = some [137, 80, 78, 71] ∧
    jlookup (finalize_job envOk entryFresh).entry.meta "outputUrl" =
      some (.str "http://x/out.png") ∧
    jlookup (finalize_job envOk entryFresh).entry.meta "finalizedAt" =
      some (.str "2026-01-02T00:00:00") :=
  c7_mirror_failure_harmless envOk metaBase "http://x/out.png" 1 [137, 80, 78, 71]
    rfl rfl rfl rfl

/-- C8: the template-to-switch mapping is total and fixed: the four known
template ids map to 1, 2, 3, 4 respectively and every other string maps
to 1, so no templateId value makes the submission fail. -/
theorem c8_template_switch_table :
    switchValue "fai_chun_01" = 1 ∧ switchValue "fai_chun_02" = 2 ∧
    switchValue "fai_chun_03" = 3 ∧ switchValue "fai_chun_04" = 4 ∧
    ∀ t : String, t ≠ "fai_chun_01" → t ≠ "fai_chun_02" →
      t ≠ "fai_chun_03" → t ≠ "fai_chun_04" → switchValue t = 1 := by
  refine ⟨rfl, rfl, rfl, rfl, ?_⟩
  intro t h1 h2 h3 h4
  simp only [switchValue, TEMPLATE_TO_INT, List.lookup,
    beq_eq_false_iff_ne.mpr h1, beq_eq_false_iff_ne.mpr h2,
    beq_eq_false_iff_ne.mpr h3, beq_eq_false_iff_ne.mpr h4]
  rfl

/-- C8 witness: the default branch on a concrete unknown template id. -/
theorem c8_template_switch_table_witness :
    switchValue "fai_chun_01" = 1 ∧ switchValue "fai_chun_99" = 1 :=
  ⟨c8_template_switch_table.1,
   c8_template_switch_table.2.2.2.2 "fai_chun_99" (by decide) (by decide)
     (by decide) (by decide)⟩

/-- C9: with the first two poll attempts yielding no candidate URL and
the third yielding one, a finalize run on an entry without an output
artifact performs exactly 3 poll attempts, downloads the discovered URL
exactly once, raises nothing, and persists the downloaded bytes as the
output artifact with `outputUrl` recorded. -/
theorem c9_three_polls (env : Env) (m : List (String × Json)) (url : String)
    (bytes : Bytes)
    (h0 : attemptUrl env 0 = none) (h1 : attemptUrl env 1 = none)
    (h2 : attemptUrl env 2 = some url) (hd : env.download url = .ok bytes) :
    (finalize_job env ⟨none, m⟩).polls = 3 ∧
    (finalize_job env ⟨none, m⟩).downloads = 1 ∧
    (finalize_job env ⟨none, m⟩).raised = false ∧
    (finalize_job env ⟨none, m⟩).entry.output = some bytes ∧
    jlookup (finalize_job env ⟨none, m⟩).entry.meta "outputUrl" =
      some (.str url) := by
  have e1 : pollFrom env 0 300 = pollFrom env 1 299 := by
    rw [show (300 : Nat) = 299 + 1 from rfl, pollFrom_succ, h0]
  have e2 : pollFrom env 1 299 = pollFrom env 2 298 := by
    rw [show (299 : Nat) = 298 + 1 from rfl, pollFrom_succ, h1]
  have e3 : pollFrom env 2 298 = some (url, 3) := by
    rw [show (298 : Nat) = 297 + 1 from rfl, pollFrom_succ, h2]
  have hp : pollFrom env 0 300 = some (url, 3) := (e1.trans e2).trans e3
  rw [finalize_job_none, hp, afterPoll_some, hd, afterDownload_ok]
  exact ⟨rfl, rfl, rfl, rfl, successMeta_outputUrl env m url⟩

/-- C9 witness: the concrete three-response environment. -/
theorem c9_three_polls_witness :
    (finalize_job envThree entryFresh).polls = 3 ∧
    (finalize_job envThree entryFresh).downloads = 1 ∧
    (finalize_job envThree entryFresh).raised = false ∧
    (finalize_job envThree entryFresh).entry.output = some [1, 2, 3] ∧
    jlookup (finalize_job envThree entryFresh).entry.meta "outputUrl" =
      some (.str "http://x/out.png") :=
  c9_three_polls envThree metaBase "http://x/out.png" [1, 2, 3] rfl rfl rfl rfl

/-! Development for the URL-extraction claims. -/

theorem head?_append (a b : List String) :
    (a ++ b).head? = optOr a.head? b.head? := by
  cases a <;> rfl

mutual

theorem walkFound_spec (j : Json) : (walkFound j).head? = specFirstUrl j := by
  cases j with
  | null => rfl
  | bool b => rfl
  | num n => rfl
  | str s => rfl
  | arr xs => exact walkList_spec xs
  | obj kvs =>
      show (dictCandidates kvs ++ walkVals kvs).head? =
        optOr (dictCandidates kvs).head? (specFirstVals kvs)
      rw [head?_append, walkVals_spec kvs]

theorem walkList_spec (xs : List Json) : (walkList xs).head? = specFirstList xs := by
  cases xs with
  | nil => rfl
  | cons x rest =>
      show (walkFound x ++ walkList rest).head? =
        optOr (specFirstUrl x) (specFirstList rest)
      rw [head?_append, walkFound_spec x, walkList_spec rest]

theorem walkVals_spec (kvs : List (String × Json)) :
    (walkVals kvs).head? = specFirstVals kvs := by
  cases kvs with
  | nil => rfl
  | cons p rest =>
      obtain ⟨k, v⟩ := p
      show (walkFound v ++ walkVals rest).head? =
        optOr (specFirstUrl v) (specFirstVals rest)
      rw [head?_append, walkFound_spec v, walkVals_spec rest]

end

/-- C5: URL extraction is deterministic and follows the stated order —
`find_first_http_url` coincides with the specification-side search
`specFirstUrl`, which returns the first string under a candidate field
name, the fields checked in priority order (fileUrl, url, file, path) at
each node of a depth-first traversal, and null when no qualifying value
exists anywhere. -/
theorem c5_url_extraction_deterministic (j : Json) :
    find_first_http_url j = specFirstUrl j :=
  walkFound_spec j

theorem isHttpStr_eq_some (o : Option Json) (s : String) :
    isHttpStr o = some s ↔ o = some (.str s) ∧ startsHttp s = true := by
  cases o with
  | none => simp [isHttpStr]
  | some v =>
      cases v with
      | str t =>
          by_cases h : startsHttp t = true
          · simp only [isHttpStr, if_pos h, Option.some.injEq, Json.str.injEq]
            constructor
            · rintro rfl; exact ⟨rfl, h⟩
            · rintro ⟨rfl, _⟩; rfl
          · simp only [isHttpStr, if_neg h]
            constructor
            · intro hfalse; exact absurd hfalse (by simp)
            · rintro ⟨heq, hs⟩
              rw [Option.some.injEq, Json.str.injEq] at heq
              subst heq
              exact absurd hs h
      | null => simp [isHttpStr]
      | bool b => simp [isHttpStr]
      | num n => simp [isHttpStr]
      | arr xs => simp [isHttpStr]
      | obj kvs => simp [isHttpStr]

theorem mem_dictCandidates (kvs : List (String × Json)) (s : String) :
    s ∈ dictCandidates kvs ↔
      ∃ k, k ∈ CANDIDATE_KEYS ∧ jlookup kvs k = some (.str s) ∧
        startsHttp s = true := by
  unfold dictCandidates
  rw [List.mem_filterMap]
  constructor
  · rintro ⟨k, hk, hf⟩
    rcases (isHttpStr_eq_some (jlookup kvs k) s).mp hf with ⟨h1, h2⟩
    exact ⟨k, hk, h1, h2⟩
  · rintro ⟨k, hk, h1, h2⟩
    exact ⟨k, hk, (isHttpStr_eq_some (jlookup kvs k) s).mpr ⟨h1, h2⟩⟩

mutual

theorem mem_walkFound (s : String) (j : Json) :
    s ∈ walkFound j ↔ HttpCandidate s j := by
  cases j with
  | null =>
      constructor
      · intro h; exact absurd h (List.not_mem_nil s)
      · intro h; cases h
  | bool b =>
      constructor
      · intro h; exact absurd h (List.not_mem_nil s)
      · intro h; cases h
  | num n =>
      constructor
      · intro h; exact absurd h (List.not_mem_nil s)
      · intro h; cases h
  | str t =>
      constructor
      · intro h; exact absurd h (List.not_mem_nil s)
      · intro h; cases h
  | arr xs =>
      rw [show walkFound (.arr xs) = walkList xs from rfl, mem_walkList s xs]
      constructor
      · rintro ⟨x, hx, hc⟩; exact HttpCandidate.inArr xs x s hx hc
      · intro h
        cases h with
        | inArr _ x _ hx hc => exact ⟨x, hx, hc⟩
  | obj kvs =>
      rw [show walkFound (.obj kvs) = dictCandidates kvs ++ walkVals kvs from rfl,
        List.mem_append, mem_dictCandidates kvs s, mem_walkVals s kvs]
      constructor
      · rintro (⟨k, hk, hv, hs⟩ | ⟨k, v, hmem, hc⟩)
        · exact HttpCandidate.here kvs k s hk hv hs
        · exact HttpCandidate.inVal kvs k v s hmem hc
      · intro h
        cases h with
        | here _ k _ hk hv hs => exact Or.inl ⟨k, hk, hv, hs⟩
        | inVal _ k v _ hmem hc => exact Or.inr ⟨k, v, hmem, hc⟩

theorem mem_walkList (s : String) (xs : List Json) :
    s ∈ walkList xs ↔ ∃ x, x ∈ xs ∧ HttpCandidate s x := by
  cases xs with
  | nil =>
      constructor
      · intro h; exact absurd h (List.not_mem_nil s)
      · rintro ⟨x, hx, _⟩; exact absurd hx (List.not_mem_nil x)
  | cons x rest =>
      rw [show walkList (x :: rest) = walkFound x ++ walkList rest from rfl,
        List.mem_append, mem_walkFound s x, mem_walkList s rest]
      constructor
      · rintro (hc | ⟨y, hy, hcy⟩)
        · exact ⟨x, List.mem_cons_self x rest, hc⟩
        · exact ⟨y, List.mem_cons_of_mem x hy, hcy⟩
      · rintro ⟨y, hy, hcy⟩
        rcases List.mem_cons.mp hy with h | h
        · subst h; exact Or.inl hcy
        · exact Or.inr ⟨y, h, hcy⟩

theorem mem_walkVals (s : String) (kvs : List (String × Json)) :
    s ∈ walkVals kvs ↔ ∃ k v, (k, v) ∈ kvs ∧ HttpCandidate s v := by
  cases kvs with
  | nil =>
      constructor
      · intro h; exact absurd h (List.not_mem_nil s)
      · rintro ⟨k, v, hkv, _⟩; exact absurd hkv (List.not_mem_nil (k, v))
  | cons p rest =>
      obtain ⟨k₀, v₀⟩ := p
      rw [show walkVals ((k₀, v₀) :: rest) = walkFound v₀ ++ walkVals rest from rfl,
        List.mem_append, mem_walkFound s v₀, mem_walkVals s rest]
      constructor
      · rintro (hc | ⟨k, v, hkv, hcv⟩)
        · exact ⟨k₀, v₀, List.mem_cons_self _ _, hc⟩
        · exact ⟨k, v, List.mem_cons_of_mem _ hkv, hcv⟩
      · rintro ⟨k, v, hkv, hcv⟩
        rcases List.mem_cons.mp hkv with h | h
        · simp only [Prod.mk.injEq] at h
          obtain ⟨rfl, rfl⟩ := h
          exact Or.inl hcv
        · exact Or.inr ⟨k, v, h, hcv⟩

end

theorem httpCandidate_startsHttp (s : String) (j : Json)
    (h : HttpCandidate s j) : startsHttp s = true := by
  induction h with
  | here kvs k s hk hv hs => exact hs
  | inVal kvs k v s hmem hc ih => exact ih
  | inArr xs x s hmem hc ih => exact ih

/-- C10: URL extraction only ever returns a string that occurs as the
value of one of the four candidate keys in some dict node and that starts
with "http" (so strings appearing as list elements, under other keys, or
as the top-level input are never returned, and candidate values not
starting with "http" are skipped); moreover the result is null exactly
when no such value occurs anywhere in the input. -/
theorem c10_extraction_sound (j : Json) :
    (∀ s, find_first_http_url j = some s →
        startsHttp s = true ∧ HttpCandidate s j) ∧
    (find_first_http_url j = none ↔ ∀ s, ¬HttpCandidate s j) := by
  constructor
  · intro s h
    have hmem : s ∈ walkFound j := List.mem_of_mem_head? (Option.mem_def.mpr h)
    have hc := (mem_walkFound s j).mp hmem
    exact ⟨httpCandidate_startsHttp s j hc, hc⟩
  · constructor
    · intro hn s hc
      have hmem : s ∈ walkFound j := (mem_walkFound s j).mpr hc
      cases hw : walkFound j with
      | nil => rw [hw] at hmem; exact absurd hmem (List.not_mem_nil s)
      | cons a tl =>
          have : find_first_http_url j = some a := by
            show (walkFound j).head? = some a
            rw [hw]
            rfl
          rw [hn] at this
          exact Option.noConfusion this
    · intro hall
      cases hw : walkFound j with
      | nil =>
          show (walkFound j).head? = none
          rw [hw]
          rfl
      | cons a tl =>
          have hmem : a ∈ walkFound j := by
            rw [hw]
            exact List.mem_cons_self a tl
          exact absurd ((mem_walkFound a j).mp hmem) (hall a)

/-- C10 witness: the soundness applied to a concrete one-field object. -/
theorem c10_extraction_sound_witness :
    startsHttp "http://x/out.png" = true ∧
    HttpCandidate "http://x/out.png"
      (.obj [("fileUrl", .str "http://x/out.png")]) :=
  (c10_extraction_sound (.obj [("fileUrl", .str "http://x/out.png")])).1
    "http://x/out.png" rfl

end FaiChun
